import Mathlib

/-!
# Voxel grid factory (`open3d/geometry/VoxelGridFactory.cpp`)

A shallow embedding of the three factory functions of `VoxelGrid`:
`CreateDense`, `CreateFromPointCloudWithinBounds` and `CreateFromPointCloud`.

Conventions of the embedding

* `double` is idealised as `ℚ` (exact arithmetic, no rounding, no NaN/inf).
* `int` is a 32 bit two's-complement integer.  Values are carried in `ℤ` and
  every conversion `int(x)` of the source goes through `toInt`, which reduces
  modulo `2^32` into `[-2^31, 2^31)`.
* `std::unordered_map` is an association list with unique keys; its iteration
  order is the order of the list.
* `utility::LogError` raises; the function then returns no grid.  This is the
  `Except.error` branch.
-/

namespace open3d
namespace geometry

/-! ## Numeric types -/

/-- The type `Eigen::Vector3d`, with `double` idealised as `ℚ`. -/
abbrev Vector3d := ℚ × ℚ × ℚ

/-- The type `Eigen::Vector3i`; components are kept in the `int` range by `toInt`. -/
abbrev Vector3i := ℤ × ℤ × ℤ

/-- The constant `std::numeric_limits<int>::max()`. -/
def INT_MAX : ℤ := 2147483647

/-- The constant `std::numeric_limits<int>::min()`. -/
def INT_MIN : ℤ := -2147483648

/-- The conversion `int(x)` of an integral `double` value `x`: inside the `int`
range it is the identity, outside it wraps modulo `2^32`. -/
def toInt (z : ℤ) : ℤ := (z + 2147483648) % 4294967296 - 2147483648

/-- The function `std::round`: nearest integer, halfway cases away from zero. -/
def std_round (q : ℚ) : ℤ := if 0 ≤ q then ⌊q + 1 / 2⌋ else ⌈q - 1 / 2⌉

/-- Eigen `v / s` for a vector and a scalar. -/
def divScalar (v : Vector3d) (s : ℚ) : Vector3d := (v.1 / s, v.2.1 / s, v.2.2 / s)

/-- Eigen `v * s` for a vector and a scalar. -/
def mulScalar (v : Vector3d) (s : ℚ) : Vector3d := (v.1 * s, v.2.1 * s, v.2.2 * s)

/-- Eigen `v.maxCoeff()`. -/
def maxCoeff (v : Vector3d) : ℚ := max v.1 (max v.2.1 v.2.2)

/-! ## Data model -/

/-- The class `geometry::Voxel`: a grid index and a color. -/
structure Voxel where
  grid_index_ : Vector3i
  color_ : Vector3d
  deriving DecidableEq

/-- The class `geometry::VoxelGrid`.  `voxels_` is the map from grid index to
voxel, kept as an association list (each voxel carries its own key). -/
structure VoxelGrid where
  voxel_size_ : ℚ
  origin_ : Vector3d
  voxels_ : List Voxel
  deriving DecidableEq

/-- The input collaborator `PointCloud`: positions and the parallel colors. -/
structure PointCloud where
  points_ : List Vector3d
  colors_ : List Vector3d
  deriving DecidableEq

deriving instance DecidableEq for Except

/-- Modelled from the spec: `utility::LogError` is declared in `Logging.h`, which
is not part of the sources.  A call raises `InvalidParameter` "synchronously",
"terminating the current construction call"; the message is the argument of
the call. -/
inductive Error where
  | InvalidParameter (msg : String)
  deriving DecidableEq

/-- The grid of `std::make_shared<VoxelGrid>()`: size 0, origin 0, no voxels. -/
def VoxelGrid.empty : VoxelGrid := ⟨0, (0, 0, 0), []⟩

/-- Assignment `voxels_[v.grid_index_] = v` on the association list: replace the
entry with the same key, or append a new one. -/
def insertVoxel : List Voxel → Voxel → List Voxel
  | [], v => [v]
  | u :: rest, v =>
    if u.grid_index_ = v.grid_index_ then v :: rest else u :: insertVoxel rest v

/-- Modelled from the spec: `VoxelGrid::AddVoxel` is defined in `VoxelGrid.cpp`,
which is not part of the sources.  The grid is "a set of Voxel entries keyed by
a unique 3D integer index (no duplicate indices)", populated "by adding
(index, color) voxel entries": adding stores the voxel under its index. -/
def VoxelGrid.AddVoxel (g : VoxelGrid) (v : Voxel) : VoxelGrid :=
  { g with voxels_ := insertVoxel g.voxels_ v }

/-- Modelled from the spec: `PointCloud::HasColors` is declared in `PointCloud.h`,
which is not part of the sources.  The colors are "an optional parallel sequence
of color triples (same length as points, or absent)": a cloud has colors when
it has points and one color per point. -/
def PointCloud.HasColors (pc : PointCloud) : Bool :=
  decide (0 < pc.points_.length) && decide (pc.colors_.length = pc.points_.length)

/-- Componentwise minimum of two vectors. -/
def cwiseMin (a b : Vector3d) : Vector3d := (min a.1 b.1, min a.2.1 b.2.1, min a.2.2 b.2.2)

/-- Componentwise maximum of two vectors. -/
def cwiseMax (a b : Vector3d) : Vector3d := (max a.1 b.1, max a.2.1 b.2.1, max a.2.2 b.2.2)

/-- Modelled from the spec: `PointCloud::GetMinBound` is not part of the sources.
It yields "the axis-aligned minimum bound of its points"; on the empty cloud
the value is the collaborator's choice, here the zero vector. -/
def PointCloud.GetMinBound (pc : PointCloud) : Vector3d :=
  match pc.points_ with
  | [] => (0, 0, 0)
  | p :: ps => ps.foldl cwiseMin p

/-- Modelled from the spec: `PointCloud::GetMaxBound` is not part of the sources.
It yields "the axis-aligned maximum bound of its points"; on the empty cloud
the value is the collaborator's choice, here the zero vector. -/
def PointCloud.GetMaxBound (pc : PointCloud) : Vector3d :=
  match pc.points_ with
  | [] => (0, 0, 0)
  | p :: ps => ps.foldl cwiseMax p

/-! ## The color accumulator -/

/-- Modelled from the spec: the class `AvgColorVoxel` is declared in `VoxelGrid.h`,
which is not part of the sources.  It holds the grid index, the running color
sum and the sample count. -/
structure AvgColorVoxel where
  num_of_points_ : ℕ
  voxel_index_ : Vector3i
  color_ : Vector3d
  deriving DecidableEq

/-- Modelled from the spec: the default-constructed accumulator of `operator[]`,
with count 0 and color sum 0. -/
def AvgColorVoxel.init : AvgColorVoxel := ⟨0, (0, 0, 0), (0, 0, 0)⟩

/-- Modelled from the spec: "`Add(index)` increments count with an implicit color
contribution of zero". -/
def AvgColorVoxel.Add (a : AvgColorVoxel) (voxel_index : Vector3i) : AvgColorVoxel :=
  { a with voxel_index_ := voxel_index, num_of_points_ := a.num_of_points_ + 1 }

/-- Modelled from the spec: "`Add(index, color)` increments count and adds `color`
to the running sum". -/
def AvgColorVoxel.AddColor (a : AvgColorVoxel) (voxel_index : Vector3i) (color : Vector3d) :
    AvgColorVoxel :=
  { voxel_index_ := voxel_index, color_ := a.color_ + color,
    num_of_points_ := a.num_of_points_ + 1 }

/-- Modelled from the spec: "`GetVoxelIndex()` returns the stored index". -/
def AvgColorVoxel.GetVoxelIndex (a : AvgColorVoxel) : Vector3i := a.voxel_index_

/-- Modelled from the spec: "`GetAverageColor()` returns `sum / count`". -/
def AvgColorVoxel.GetAverageColor (a : AvgColorVoxel) : Vector3d :=
  divScalar a.color_ (a.num_of_points_ : ℚ)

/-- The table `voxelindex_to_accpoint`: an `unordered_map` from grid index to
accumulator, as an association list. -/
abbrev AccMap := List (Vector3i × AvgColorVoxel)

/-- The access `m[k]` followed by an in-place update `f` of the entry: the entry
is found by key, or default-constructed and appended if absent. -/
def AccMap.modify : AccMap → Vector3i → (AvgColorVoxel → AvgColorVoxel) → AccMap
  | [], k, f => [(k, f AvgColorVoxel.init)]
  | (k', a) :: rest, k, f =>
    if k' = k then (k', f a) :: rest else (k', a) :: AccMap.modify rest k f

/-! ## `CreateDense` -/

/-- The three nested `for` loops of `CreateDense`. -/
def denseLoop (color : Vector3d) (num_w num_h num_d : ℤ) (output : VoxelGrid) : VoxelGrid :=
  (List.range num_w.toNat).foldl (fun out (widx : ℕ) =>
    (List.range num_h.toNat).foldl (fun out (hidx : ℕ) =>
      (List.range num_d.toNat).foldl (fun out (didx : ℕ) =>
        out.AddVoxel ⟨((widx : ℤ), (hidx : ℤ), (didx : ℤ)), color⟩) out) out) output

/-- The function `VoxelGrid::CreateDense`. -/
def CreateDense (origin color : Vector3d) (voxel_size width height depth : ℚ) : VoxelGrid :=
  let num_w := toInt (std_round (width / voxel_size))
  let num_h := toInt (std_round (height / voxel_size))
  let num_d := toInt (std_round (depth / voxel_size))
  let output : VoxelGrid := { VoxelGrid.empty with origin_ := origin, voxel_size_ := voxel_size }
  denseLoop color num_w num_h num_d output

/-! ## `CreateFromPointCloudWithinBounds` -/

/-- The mathematical index `floor((p - min_bound) / voxel_size)`, componentwise,
before the conversion to `int`. -/
def floorIndex (voxel_size : ℚ) (min_bound p : Vector3d) : Vector3i :=
  let ref_coord := divScalar (p - min_bound) voxel_size
  (⌊ref_coord.1⌋, ⌊ref_coord.2.1⌋, ⌊ref_coord.2.2⌋)

/-- The index stored by the loop body:
`int(floor(ref_coord(0))), int(floor(ref_coord(1))), int(floor(ref_coord(2)))`. -/
def voxelIndex (voxel_size : ℚ) (min_bound p : Vector3d) : Vector3i :=
  let ref_coord := divScalar (p - min_bound) voxel_size
  (toInt ⌊ref_coord.1⌋, toInt ⌊ref_coord.2.1⌋, toInt ⌊ref_coord.2.2⌋)

/-- The three components of an index are representable as `int`. -/
def InIntRange (i : Vector3i) : Prop :=
  (INT_MIN ≤ i.1 ∧ i.1 ≤ INT_MAX) ∧ (INT_MIN ≤ i.2.1 ∧ i.2.1 ≤ INT_MAX) ∧
    (INT_MIN ≤ i.2.2 ∧ i.2.2 ≤ INT_MAX)

instance (i : Vector3i) : Decidable (InIntRange i) := by
  unfold InIntRange
  infer_instance

/-- The colors `c1 .. cn` of exactly those input points whose floor-index is `idx`,
in input order. -/
def colorsAt (voxel_size : ℚ) (min_bound : Vector3d) (input : PointCloud) (idx : Vector3i) :
    List Vector3d :=
  ((input.points_.zip input.colors_).filter
    (fun pc => decide (floorIndex voxel_size min_bound pc.1 = idx))).map Prod.snd

/-- The accumulation loop over `input.points_`, reading `input.colors_[i]` in
parallel when `has_colors` holds.  The loop counter is an `int`; the point list
is taken to have fewer than `2^31` elements, so that every point is visited. -/
def accumulate (has_colors : Bool) (voxel_size : ℚ) (min_bound : Vector3d) :
    List Vector3d → List Vector3d → AccMap → AccMap
  | [], _, m => m
  | p :: ps, cs, m =>
    let voxel_index := voxelIndex voxel_size min_bound p
    let m' :=
      if has_colors then
        m.modify voxel_index (fun a => a.AddColor voxel_index (cs.headD (0, 0, 0)))
      else
        m.modify voxel_index (fun a => a.Add voxel_index)
    accumulate has_colors voxel_size min_bound ps cs.tail m'

/-- The voxel emitted for one entry of the table. -/
def emitVoxel (has_colors : Bool) (accpoint : Vector3i × AvgColorVoxel) : Voxel :=
  ⟨accpoint.2.GetVoxelIndex, if has_colors then accpoint.2.GetAverageColor else (0, 0, 0)⟩

/-- The emission loop `for (auto accpoint : voxelindex_to_accpoint)`. -/
def emit (has_colors : Bool) (m : AccMap) (output : VoxelGrid) : VoxelGrid :=
  m.foldl (fun out accpoint => out.AddVoxel (emitVoxel has_colors accpoint)) output

/-- The function `VoxelGrid::CreateFromPointCloudWithinBounds`. -/
def CreateFromPointCloudWithinBounds (input : PointCloud) (voxel_size : ℚ)
    (min_bound max_bound : Vector3d) : Except Error VoxelGrid :=
  if voxel_size ≤ 0 then
    .error (.InvalidParameter "voxel_size <= 0.")
  else if voxel_size * (INT_MAX : ℚ) < maxCoeff (max_bound - min_bound) then
    .error (.InvalidParameter "voxel_size is too small.")
  else
    let output : VoxelGrid :=
      { VoxelGrid.empty with voxel_size_ := voxel_size, origin_ := min_bound }
    let has_colors := input.HasColors
    let voxelindex_to_accpoint :=
      accumulate has_colors voxel_size min_bound input.points_ input.colors_ []
    .ok (emit has_colors voxelindex_to_accpoint output)

/-! ## `CreateFromPointCloud` -/

/-- The function `VoxelGrid::CreateFromPointCloud`. -/
def CreateFromPointCloud (input : PointCloud) (voxel_size : ℚ) : Except Error VoxelGrid :=
  let voxel_size3 : Vector3d := (voxel_size, voxel_size, voxel_size)
  let min_bound := input.GetMinBound - mulScalar voxel_size3 (1 / 2)
  let max_bound := input.GetMaxBound + mulScalar voxel_size3 (1 / 2)
  CreateFromPointCloudWithinBounds input voxel_size min_bound max_bound

/-! ## Proof devices -/

/-- The contribution of each processed point to the table: the key computed by
the loop body and the color it adds (zero in the no-color form). -/
def contribs (has_colors : Bool) (voxel_size : ℚ) (min_bound : Vector3d) :
    List Vector3d → List Vector3d → List (Vector3i × Vector3d)
  | [], _ => []
  | p :: ps, cs =>
    (voxelIndex voxel_size min_bound p, if has_colors then cs.headD (0, 0, 0) else (0, 0, 0))
      :: contribs has_colors voxel_size min_bound ps cs.tail

/-- One iteration of the accumulation loop, on a contribution. -/
def accStep (m : AccMap) (e : Vector3i × Vector3d) : AccMap :=
  m.modify e.1 (fun a => a.AddColor e.1 e.2)

/-- Lookup by key in the table. -/
def AccMap.find : AccMap → Vector3i → Option AvgColorVoxel
  | [], _ => none
  | (k', a) :: rest, k => if k' = k then some a else AccMap.find rest k

/-- The accumulator that the contributions `es` build for the key `k`. -/
def agg (es : List (Vector3i × Vector3d)) (k : Vector3i) : AvgColorVoxel :=
  ⟨(es.filter (fun e => e.1 = k)).length, k, ((es.filter (fun e => e.1 = k)).map Prod.snd).sum⟩

/-- The table invariant: keys are unique, and each key holds exactly the
accumulator built by the contributions processed so far. -/
def AccInv (m : AccMap) (es : List (Vector3i × Vector3d)) : Prop :=
  (m.map Prod.fst).Nodup ∧
    ∀ k, AccMap.find m k = if k ∈ es.map Prod.fst then some (agg es k) else none

/-- The voxel that the contributions `es` yield for the key `k`. -/
def voxelOf (has_colors : Bool) (es : List (Vector3i × Vector3d)) (k : Vector3i) : Voxel :=
  emitVoxel has_colors (k, agg es k)

/-- The index sequence of the three nested loops, `w` outermost, `d` innermost. -/
def denseIndices (nw nh nd : ℕ) : List Vector3i :=
  (List.range nw).flatMap (fun (w : ℕ) =>
    (List.range nh).flatMap (fun (h : ℕ) =>
      (List.range nd).map (fun (d : ℕ) => (((w : ℤ), (h : ℤ), (d : ℤ)) : Vector3i))))

/-- The sequence of `AddVoxel` calls of the three nested `for` loops of
`CreateDense`: the same loops as `denseLoop`, logging the argument of each call. -/
def denseCalls (color : Vector3d) (num_w num_h num_d : ℤ) : List Voxel :=
  (List.range num_w.toNat).foldl (fun log (widx : ℕ) =>
    (List.range num_h.toNat).foldl (fun log (hidx : ℕ) =>
      (List.range num_d.toNat).foldl (fun log (didx : ℕ) =>
        log ++ [⟨((widx : ℤ), (hidx : ℤ), (didx : ℤ)), color⟩]) log) log) []

/-- Strict lexicographic order on indices, first component most significant. -/
def lexLt (a b : Vector3i) : Prop :=
  a.1 < b.1 ∨ (a.1 = b.1 ∧ (a.2.1 < b.2.1 ∨ (a.2.1 = b.2.1 ∧ a.2.2 < b.2.2)))

/-- The point `p` lies componentwise within `[min_bound, max_bound]`. -/
def WithinBounds (p min_bound max_bound : Vector3d) : Prop :=
  (min_bound.1 ≤ p.1 ∧ p.1 ≤ max_bound.1) ∧ (min_bound.2.1 ≤ p.2.1 ∧ p.2.1 ≤ max_bound.2.1) ∧
    (min_bound.2.2 ≤ p.2.2 ∧ p.2.2 ≤ max_bound.2.2)

instance (p min_bound max_bound : Vector3d) : Decidable (WithinBounds p min_bound max_bound) := by
  unfold WithinBounds
  infer_instance

/-- The three components of an index lie in `[0, INT_MAX]`. -/
def InNonnegRange (i : Vector3i) : Prop :=
  (0 ≤ i.1 ∧ i.1 ≤ INT_MAX) ∧ (0 ≤ i.2.1 ∧ i.2.1 ≤ INT_MAX) ∧ (0 ≤ i.2.2 ∧ i.2.2 ≤ INT_MAX)

instance (i : Vector3i) : Decidable (InNonnegRange i) := by
  unfold InNonnegRange
  infer_instance

/-- The offset `x` on one axis lies in the cell `i` of edge length `voxel_size`:
`i * voxel_size <= x < (i + 1) * voxel_size`. -/
def axisCell (voxel_size x : ℚ) (i : ℤ) : Prop :=
  (i : ℚ) * voxel_size ≤ x ∧ x < ((i : ℚ) + 1) * voxel_size

instance (voxel_size x : ℚ) (i : ℤ) : Decidable (axisCell voxel_size x i) := by
  unfold axisCell
  infer_instance

/-- The number of the processed points `ps` whose floor-index equals `k`. -/
def countAt (voxel_size : ℚ) (min_bound : Vector3d) (ps : List Vector3d) (k : Vector3i) : ℕ :=
  (ps.filter (fun p => decide (floorIndex voxel_size min_bound p = k))).length

/-- The Bounds Resolver as the specification words it: compute
`min_bound = pointcloud_min - (voxel_size/2, voxel_size/2, voxel_size/2)` and
`max_bound = pointcloud_max + (voxel_size/2, voxel_size/2, voxel_size/2)`, then
delegate to `CreateFromPointCloudWithinBounds` with these bounds. -/
def BoundsResolver_spec (input : PointCloud) (voxel_size : ℚ) : Except Error VoxelGrid :=
  CreateFromPointCloudWithinBounds input voxel_size
    (input.GetMinBound - (voxel_size / 2, voxel_size / 2, voxel_size / 2))
    (input.GetMaxBound + (voxel_size / 2, voxel_size / 2, voxel_size / 2))

/-! ## Lemmas on the output map -/

theorem insertVoxel_of_not_mem (vs : List Voxel) (v : Voxel)
    (h : v.grid_index_ ∉ vs.map Voxel.grid_index_) : insertVoxel vs v = vs ++ [v] := by
  induction vs with
  | nil => rfl
  | cons u rest ih =>
    simp only [List.map_cons, List.mem_cons, not_or] at h
    have hne : ¬ u.grid_index_ = v.grid_index_ := fun e => h.1 e.symm
    simp [insertVoxel, hne, ih h.2]

theorem foldl_AddVoxel_of_nodup {α : Type} (f : α → Voxel) (l : List α) (g : VoxelGrid)
    (h : ((g.voxels_ ++ l.map f).map Voxel.grid_index_).Nodup) :
    l.foldl (fun out x => out.AddVoxel (f x)) g = { g with voxels_ := g.voxels_ ++ l.map f } := by
  induction l generalizing g with
  | nil => simp
  | cons x rest ih =>
    have hx : (f x).grid_index_ ∉ g.voxels_.map Voxel.grid_index_ := by
      simp only [List.map_append, List.map_cons] at h
      have := (List.nodup_append.1 h).2.2
      intro hmem
      exact this hmem (List.mem_cons_self _ _)
    have hstep : (g.AddVoxel (f x)).voxels_ = g.voxels_ ++ [f x] := by
      simp [VoxelGrid.AddVoxel, insertVoxel_of_not_mem _ _ hx]
    rw [List.foldl_cons, ih]
    · simp [VoxelGrid.AddVoxel, insertVoxel_of_not_mem _ _ hx]
    · rw [hstep]
      simpa using h

/-! ## Lemmas on the accumulation table -/

theorem find_modify (m : AccMap) (k k' : Vector3i) (f : AvgColorVoxel → AvgColorVoxel) :
    AccMap.find (AccMap.modify m k f) k' =
      if k = k' then some (f ((AccMap.find m k).getD AvgColorVoxel.init))
      else AccMap.find m k' := by
  induction m with
  | nil => simp [AccMap.modify, AccMap.find]
  | cons x rest ih =>
    obtain ⟨k0, a⟩ := x
    by_cases h0 : k0 = k
    · subst h0
      by_cases h1 : k0 = k' <;> simp [AccMap.modify, AccMap.find, h1]
    · by_cases h1 : k = k'
      · subst h1
        simp [AccMap.modify, AccMap.find, h0, ih]
      · simp [AccMap.modify, AccMap.find, h0, ih, h1]

theorem keys_modify (m : AccMap) (k : Vector3i) (f : AvgColorVoxel → AvgColorVoxel) :
    (AccMap.modify m k f).map Prod.fst =
      if k ∈ m.map Prod.fst then m.map Prod.fst else m.map Prod.fst ++ [k] := by
  induction m with
  | nil => simp [AccMap.modify]
  | cons x rest ih =>
    obtain ⟨k0, a⟩ := x
    by_cases h0 : k0 = k
    · subst h0
      simp [AccMap.modify]
    · have h0' : ¬ k = k0 := fun e => h0 e.symm
      by_cases hk : k ∈ rest.map Prod.fst
      · simp [AccMap.modify, h0, ih, hk]
      · simp [AccMap.modify, h0, h0', ih, hk]

theorem nodup_keys_modify (m : AccMap) (k : Vector3i) (f : AvgColorVoxel → AvgColorVoxel)
    (h : (m.map Prod.fst).Nodup) : ((AccMap.modify m k f).map Prod.fst).Nodup := by
  rw [keys_modify]
  split
  · exact h
  · next hk =>
    refine List.nodup_append.2 ⟨h, List.nodup_singleton _, ?_⟩
    intro a ha hb
    simp only [List.mem_singleton] at hb
    exact hk (hb ▸ ha)

theorem mem_iff_find (m : AccMap) (h : (m.map Prod.fst).Nodup) (k : Vector3i)
    (a : AvgColorVoxel) : (k, a) ∈ m ↔ AccMap.find m k = some a := by
  induction m with
  | nil => simp [AccMap.find]
  | cons x rest ih =>
    obtain ⟨k0, a0⟩ := x
    simp only [List.map_cons, List.nodup_cons] at h
    by_cases h0 : k0 = k
    · subst h0
      have hnot : ∀ b, (k0, b) ∉ rest := fun b hb => h.1 (List.mem_map_of_mem Prod.fst hb)
      simp [AccMap.find, hnot]
      exact eq_comm
    · have h0' : ¬ k = k0 := fun e => h0 e.symm
      simp [AccMap.find, h0, h0', ih h.2]

theorem mem_keys_iff_find (m : AccMap) (k : Vector3i) :
    k ∈ m.map Prod.fst ↔ (AccMap.find m k).isSome = true := by
  induction m with
  | nil => simp [AccMap.find]
  | cons x rest ih =>
    obtain ⟨k0, a0⟩ := x
    by_cases h0 : k0 = k
    · subst h0
      simp [AccMap.find]
    · have h0' : ¬ k = k0 := fun e => h0 e.symm
      simp [AccMap.find, h0, h0', ih]

theorem accumulate_eq_foldl (has_colors : Bool) (voxel_size : ℚ) (min_bound : Vector3d)
    (ps cs : List Vector3d) (m : AccMap) :
    accumulate has_colors voxel_size min_bound ps cs m =
      (contribs has_colors voxel_size min_bound ps cs).foldl accStep m := by
  induction ps generalizing cs m with
  | nil => rfl
  | cons p rest ih =>
    cases has_colors
    · simp [accumulate, contribs, ih, accStep, AvgColorVoxel.Add, AvgColorVoxel.AddColor]
    · simp [accumulate, contribs, ih, accStep]

theorem AccInv_nil : AccInv [] [] := by
  constructor
  · simp
  · intro k
    simp [AccMap.find]

theorem filter_key_eq_nil (es : List (Vector3i × Vector3d)) (k : Vector3i)
    (h : k ∉ es.map Prod.fst) : es.filter (fun e => e.1 = k) = [] := by
  rw [List.filter_eq_nil_iff]
  intro e he
  simp only [decide_eq_true_eq]
  intro hk
  exact h (hk ▸ List.mem_map_of_mem Prod.fst he)

theorem AccInv_step (m : AccMap) (es : List (Vector3i × Vector3d)) (e : Vector3i × Vector3d)
    (h : AccInv m es) : AccInv (accStep m e) (es ++ [e]) := by
  obtain ⟨hnd, hfind⟩ := h
  refine ⟨nodup_keys_modify _ _ _ hnd, ?_⟩
  intro k
  unfold accStep
  rw [find_modify]
  by_cases hk : e.1 = k
  · subst hk
    rw [hfind]
    by_cases hmem : e.1 ∈ es.map Prod.fst
    · simp [hmem, agg, AvgColorVoxel.AddColor, List.filter_append]
    · have hnil := filter_key_eq_nil es e.1 hmem
      simp [hmem, agg, AvgColorVoxel.AddColor, AvgColorVoxel.init, List.filter_append, hnil]
  · have hk' : ¬ k = e.1 := fun h => hk h.symm
    have hiff : k ∈ List.map Prod.fst (es ++ [e]) ↔ k ∈ List.map Prod.fst es := by
      rw [List.map_append, List.mem_append]
      constructor
      · rintro (h | h)
        · exact h
        · simp only [List.map_cons, List.map_nil, List.mem_singleton] at h
          exact absurd h hk'
      · exact Or.inl
    rw [if_neg hk, hfind k]
    simp only [hiff]
    simp [hk, agg, List.filter_append]

theorem AccInv_foldl (es done : List (Vector3i × Vector3d)) (m : AccMap) (h : AccInv m done) :
    AccInv (es.foldl accStep m) (done ++ es) := by
  induction es generalizing m done with
  | nil => simpa using h
  | cons e rest ih =>
    have := ih (done ++ [e]) (accStep m e) (AccInv_step m done e h)
    simpa using this

theorem AccInv_mem (m : AccMap) (es : List (Vector3i × Vector3d)) (h : AccInv m es)
    (k : Vector3i) (a : AvgColorVoxel) :
    (k, a) ∈ m ↔ k ∈ es.map Prod.fst ∧ a = agg es k := by
  rw [mem_iff_find m h.1, h.2]
  by_cases hk : k ∈ es.map Prod.fst
  · simp [hk, eq_comm]
  · simp [hk]

theorem AccInv_keys (m : AccMap) (es : List (Vector3i × Vector3d)) (h : AccInv m es)
    (k : Vector3i) : k ∈ m.map Prod.fst ↔ k ∈ es.map Prod.fst := by
  rw [mem_keys_iff_find, h.2]
  by_cases hk : k ∈ es.map Prod.fst <;> simp [hk]

theorem AccInv_map_emit (has_colors : Bool) (m : AccMap) (es : List (Vector3i × Vector3d))
    (h : AccInv m es) :
    m.map (emitVoxel has_colors) = (m.map Prod.fst).map (voxelOf has_colors es) := by
  rw [List.map_map]
  apply List.map_congr_left
  rintro ⟨k, a⟩ hmem
  have := ((AccInv_mem m es h k a).1 hmem).2
  subst this
  rfl

theorem grid_index_voxelOf (has_colors : Bool) (es : List (Vector3i × Vector3d)) (k : Vector3i) :
    (voxelOf has_colors es k).grid_index_ = k := rfl

/-- The result of a successful call, in closed form: the voxels are those of the
keys of the table, in the order of the table. -/
theorem CreateFromPointCloudWithinBounds_ok (input : PointCloud) (voxel_size : ℚ)
    (min_bound max_bound : Vector3d) (g : VoxelGrid)
    (h : CreateFromPointCloudWithinBounds input voxel_size min_bound max_bound = .ok g) :
    ∃ keys : List Vector3i, keys.Nodup ∧
      (∀ k, k ∈ keys ↔ k ∈ (contribs input.HasColors voxel_size min_bound
        input.points_ input.colors_).map Prod.fst) ∧
      g = ⟨voxel_size, min_bound, keys.map (voxelOf input.HasColors (contribs input.HasColors
        voxel_size min_bound input.points_ input.colors_))⟩ := by
  unfold CreateFromPointCloudWithinBounds at h
  split_ifs at h with h1 h2
  simp only [Except.ok.injEq] at h
  set es := contribs input.HasColors voxel_size min_bound input.points_ input.colors_ with hes
  have hinv : AccInv (es.foldl accStep []) ([] ++ es) := AccInv_foldl es [] [] AccInv_nil
  rw [List.nil_append] at hinv
  refine ⟨(es.foldl accStep []).map Prod.fst, hinv.1, AccInv_keys _ _ hinv, ?_⟩
  rw [← h, accumulate_eq_foldl, emit, foldl_AddVoxel_of_nodup]
  · simp [VoxelGrid.empty, AccInv_map_emit _ _ _ hinv]
  · simp only [VoxelGrid.empty, List.nil_append]
    rw [AccInv_map_emit _ _ _ hinv, List.map_map]
    have : (Voxel.grid_index_ ∘ voxelOf input.HasColors es) = id := by
      funext k; rfl
    rw [this, List.map_id]
    exact hinv.1

/-! ## Index conversion -/

theorem toInt_of_range (z : ℤ) (h1 : INT_MIN ≤ z) (h2 : z ≤ INT_MAX) : toInt z = z := by
  unfold INT_MIN at h1
  unfold INT_MAX at h2
  unfold toInt
  omega

theorem voxelIndex_eq_floorIndex (voxel_size : ℚ) (min_bound p : Vector3d)
    (h : InIntRange (floorIndex voxel_size min_bound p)) :
    voxelIndex voxel_size min_bound p = floorIndex voxel_size min_bound p := by
  obtain ⟨⟨a1, a2⟩, ⟨b1, b2⟩, ⟨c1, c2⟩⟩ := h
  simp only [floorIndex] at a1 a2 b1 b2 c1 c2
  simp only [voxelIndex, floorIndex, toInt_of_range _ a1 a2, toInt_of_range _ b1 b2,
    toInt_of_range _ c1 c2]

theorem map_voxelIndex_eq_floorIndex (voxel_size : ℚ) (min_bound : Vector3d)
    (ps : List Vector3d) (h : ∀ p ∈ ps, InIntRange (floorIndex voxel_size min_bound p)) :
    ps.map (voxelIndex voxel_size min_bound) = ps.map (floorIndex voxel_size min_bound) :=
  List.map_congr_left (fun p hp => voxelIndex_eq_floorIndex _ _ _ (h p hp))

theorem contribs_keys (has_colors : Bool) (voxel_size : ℚ) (min_bound : Vector3d)
    (ps cs : List Vector3d) :
    (contribs has_colors voxel_size min_bound ps cs).map Prod.fst
      = ps.map (voxelIndex voxel_size min_bound) := by
  induction ps generalizing cs with
  | nil => rfl
  | cons p rest ih => simp [contribs, ih]

theorem contribs_no_colors (voxel_size : ℚ) (min_bound : Vector3d) (ps cs : List Vector3d) :
    contribs false voxel_size min_bound ps cs
      = ps.map (fun p => (voxelIndex voxel_size min_bound p, ((0, 0, 0) : Vector3d))) := by
  induction ps generalizing cs with
  | nil => rfl
  | cons p rest ih => simp [contribs, ih]

theorem contribs_colors (voxel_size : ℚ) (min_bound : Vector3d) (ps cs : List Vector3d)
    (h : cs.length = ps.length) :
    contribs true voxel_size min_bound ps cs
      = (ps.zip cs).map (fun pc => (voxelIndex voxel_size min_bound pc.1, pc.2)) := by
  induction ps generalizing cs with
  | nil => rfl
  | cons p rest ih =>
    cases cs with
    | nil => simp at h
    | cons c cs' =>
      simp only [List.length_cons, add_left_inj] at h
      simp [contribs, ih cs' h]

theorem HasColors_length (input : PointCloud) (h : input.HasColors = true) :
    input.colors_.length = input.points_.length := by
  unfold PointCloud.HasColors at h
  simp only [Bool.and_eq_true, decide_eq_true_eq] at h
  exact h.2

/-- Membership in the voxels of a successful result. -/
theorem mem_voxels_iff (input : PointCloud) (voxel_size : ℚ)
    (min_bound max_bound : Vector3d) (g : VoxelGrid)
    (h : CreateFromPointCloudWithinBounds input voxel_size min_bound max_bound = .ok g)
    (v : Voxel) :
    v ∈ g.voxels_ ↔ ∃ p ∈ input.points_,
      v = voxelOf input.HasColors (contribs input.HasColors voxel_size min_bound
        input.points_ input.colors_) (voxelIndex voxel_size min_bound p) := by
  obtain ⟨keys, _, hkeys, hg⟩ := CreateFromPointCloudWithinBounds_ok _ _ _ _ _ h
  subst hg
  simp only [List.mem_map]
  constructor
  · rintro ⟨k, hk, rfl⟩
    rw [hkeys, contribs_keys, List.mem_map] at hk
    obtain ⟨p, hp, rfl⟩ := hk
    exact ⟨p, hp, rfl⟩
  · rintro ⟨p, hp, rfl⟩
    refine ⟨voxelIndex voxel_size min_bound p, ?_, rfl⟩
    rw [hkeys, contribs_keys]
    exact List.mem_map_of_mem _ hp

/-- The grid indices of a successful result are pairwise distinct and are, as a
set, the indices computed for the points. -/
theorem indices_voxels (input : PointCloud) (voxel_size : ℚ)
    (min_bound max_bound : Vector3d) (g : VoxelGrid)
    (h : CreateFromPointCloudWithinBounds input voxel_size min_bound max_bound = .ok g) :
    (g.voxels_.map Voxel.grid_index_).Nodup ∧
      ∀ idx, idx ∈ g.voxels_.map Voxel.grid_index_ ↔
        idx ∈ input.points_.map (voxelIndex voxel_size min_bound) := by
  obtain ⟨keys, hnd, hkeys, hg⟩ := CreateFromPointCloudWithinBounds_ok _ _ _ _ _ h
  subst hg
  have hid : (Voxel.grid_index_ ∘ voxelOf input.HasColors (contribs input.HasColors
      voxel_size min_bound input.points_ input.colors_)) = id := by
    funext k; rfl
  simp only [List.map_map, hid, List.map_id]
  refine ⟨hnd, fun idx => ?_⟩
  rw [hkeys, contribs_keys]

/-! ## The three exits of `CreateFromPointCloudWithinBounds` -/

theorem result_of_nonpos (input : PointCloud) (voxel_size : ℚ) (min_bound max_bound : Vector3d)
    (h : voxel_size ≤ 0) :
    CreateFromPointCloudWithinBounds input voxel_size min_bound max_bound
      = .error (.InvalidParameter "voxel_size <= 0.") := by
  unfold CreateFromPointCloudWithinBounds
  rw [if_pos h]

theorem result_of_too_small (input : PointCloud) (voxel_size : ℚ)
    (min_bound max_bound : Vector3d) (hpos : 0 < voxel_size)
    (hsmall : voxel_size * (INT_MAX : ℚ) < maxCoeff (max_bound - min_bound)) :
    CreateFromPointCloudWithinBounds input voxel_size min_bound max_bound
      = .error (.InvalidParameter "voxel_size is too small.") := by
  unfold CreateFromPointCloudWithinBounds
  rw [if_neg (not_le.2 hpos), if_pos hsmall]

theorem result_of_valid (input : PointCloud) (voxel_size : ℚ)
    (min_bound max_bound : Vector3d) (h1 : ¬ voxel_size ≤ 0)
    (h2 : ¬ voxel_size * (INT_MAX : ℚ) < maxCoeff (max_bound - min_bound)) :
    CreateFromPointCloudWithinBounds input voxel_size min_bound max_bound
      = .ok (emit input.HasColors (accumulate input.HasColors voxel_size min_bound
          input.points_ input.colors_ [])
        { VoxelGrid.empty with voxel_size_ := voxel_size, origin_ := min_bound }) := by
  unfold CreateFromPointCloudWithinBounds
  rw [if_neg h1, if_neg h2]

theorem valid_of_ok (input : PointCloud) (voxel_size : ℚ)
    (min_bound max_bound : Vector3d) (g : VoxelGrid)
    (h : CreateFromPointCloudWithinBounds input voxel_size min_bound max_bound = .ok g) :
    ¬ voxel_size ≤ 0 ∧ ¬ voxel_size * (INT_MAX : ℚ) < maxCoeff (max_bound - min_bound) := by
  constructor
  · intro h1
    rw [result_of_nonpos _ _ _ _ h1] at h
    cases h
  · intro h2
    by_cases h1 : voxel_size ≤ 0
    · rw [result_of_nonpos _ _ _ _ h1] at h
      cases h
    · rw [result_of_too_small _ _ _ _ (not_le.1 h1) h2] at h
      cases h

/-! ## Validation of `CreateFromPointCloudWithinBounds` -/

/-- C1: for every point list, color list, `min_bound` and `max_bound`, and every
`voxel_size <= 0`, `CreateFromPointCloudWithinBounds` fails with the
`InvalidParameter` error "voxel_size <= 0." and returns no grid. -/
theorem CreateFromPointCloudWithinBounds_voxel_size_nonpos (input : PointCloud)
    (voxel_size : ℚ) (min_bound max_bound : Vector3d) (h : voxel_size ≤ 0) :
    CreateFromPointCloudWithinBounds input voxel_size min_bound max_bound
        = .error (.InvalidParameter "voxel_size <= 0.") ∧
      ∀ g, CreateFromPointCloudWithinBounds input voxel_size min_bound max_bound ≠ .ok g := by
  have hres := result_of_nonpos input voxel_size min_bound max_bound h
  refine ⟨hres, ?_⟩
  intro g hg
  rw [hres] at hg
  cases hg

theorem CreateFromPointCloudWithinBounds_voxel_size_nonpos_witness :
    CreateFromPointCloudWithinBounds ⟨[(1, 2, 3), (4, 5, 6)], [(1, 0, 0), (0, 1, 0)]⟩ (-1)
        (0, 0, 0) (10, 10, 10) = .error (.InvalidParameter "voxel_size <= 0.") ∧
      ∀ g, CreateFromPointCloudWithinBounds ⟨[(1, 2, 3), (4, 5, 6)], [(1, 0, 0), (0, 1, 0)]⟩ (-1)
        (0, 0, 0) (10, 10, 10) ≠ .ok g :=
  CreateFromPointCloudWithinBounds_voxel_size_nonpos _ (-1) _ _ (by norm_num)

theorem agg_colors (voxel_size : ℚ) (min_bound : Vector3d) (input : PointCloud)
    (hlen : input.colors_.length = input.points_.length)
    (hr : ∀ p ∈ input.points_, InIntRange (floorIndex voxel_size min_bound p)) (k : Vector3i) :
    ((contribs true voxel_size min_bound input.points_ input.colors_).filter
        (fun e => decide (e.1 = k))).map Prod.snd
      = colorsAt voxel_size min_bound input k := by
  rw [contribs_colors _ _ _ _ hlen, List.filter_map, List.map_map]
  unfold colorsAt
  have hcongr : (input.points_.zip input.colors_).filter
        ((fun e : Vector3i × Vector3d => decide (e.1 = k)) ∘
          fun pc : Vector3d × Vector3d => (voxelIndex voxel_size min_bound pc.1, pc.2))
      = (input.points_.zip input.colors_).filter
        (fun pc => decide (floorIndex voxel_size min_bound pc.1 = k)) := by
    apply List.filter_congr
    rintro ⟨q, c⟩ hmem
    have hq : q ∈ input.points_ := (List.of_mem_zip hmem).1
    simp only [Function.comp_apply, voxelIndex_eq_floorIndex _ _ _ (hr q hq)]
  rw [hcongr]
  rfl

theorem filter_key_length_pos (es : List (Vector3i × Vector3d)) (k : Vector3i)
    (h : k ∈ es.map Prod.fst) : 1 ≤ (es.filter (fun e => decide (e.1 = k))).length := by
  obtain ⟨e, he, hk⟩ := List.mem_map.1 h
  have hmem : e ∈ es.filter (fun e => decide (e.1 = k)) := by
    rw [List.mem_filter]
    exact ⟨he, by simpa using hk⟩
  exact List.length_pos_of_mem hmem

/-- C7: for every input without a color attribute on which
`CreateFromPointCloudWithinBounds` succeeds, every output voxel's color is
exactly `(0, 0, 0)`. -/
theorem CreateFromPointCloudWithinBounds_no_color_black (input : PointCloud)
    (voxel_size : ℚ) (min_bound max_bound : Vector3d) (g : VoxelGrid)
    (hc : input.HasColors = false)
    (h : CreateFromPointCloudWithinBounds input voxel_size min_bound max_bound = .ok g) :
    ∀ v ∈ g.voxels_, v.color_ = (0, 0, 0) := by
  intro v hv
  obtain ⟨p, _, rfl⟩ := (mem_voxels_iff _ _ _ _ _ h v).1 hv
  rw [hc]
  rfl

theorem CreateFromPointCloudWithinBounds_no_color_black_witness :
    CreateFromPointCloudWithinBounds
        ⟨[(1 / 2, 3 / 2, 5 / 2), (7 / 10, 6 / 5, 29 / 10), (3, -1 / 4, 0)], []⟩
        1 (0, 0, 0) (4, 4, 4)
      = .ok ⟨1, (0, 0, 0), [⟨(0, 1, 2), (0, 0, 0)⟩, ⟨(3, -1, 0), (0, 0, 0)⟩]⟩ ∧
    ∀ v ∈ [(⟨(0, 1, 2), (0, 0, 0)⟩ : Voxel), ⟨(3, -1, 0), (0, 0, 0)⟩], v.color_ = (0, 0, 0) :=
  ⟨by decide!, CreateFromPointCloudWithinBounds_no_color_black
    ⟨[(1 / 2, 3 / 2, 5 / 2), (7 / 10, 6 / 5, 29 / 10), (3, -1 / 4, 0)], []⟩
    1 (0, 0, 0) (4, 4, 4)
    ⟨1, (0, 0, 0), [⟨(0, 1, 2), (0, 0, 0)⟩, ⟨(3, -1, 0), (0, 0, 0)⟩]⟩
    (by decide!) (by decide!)⟩

/-! ## Independence of the order of the points -/

theorem agg_perm (es1 es2 : List (Vector3i × Vector3d)) (h : es1.Perm es2) (k : Vector3i) :
    agg es1 k = agg es2 k := by
  have hf := h.filter (fun e => decide (e.1 = k))
  unfold agg
  rw [hf.length_eq, (hf.map Prod.snd).sum_eq]

theorem mem_voxels_iff_key (input : PointCloud) (voxel_size : ℚ)
    (min_bound max_bound : Vector3d) (g : VoxelGrid)
    (h : CreateFromPointCloudWithinBounds input voxel_size min_bound max_bound = .ok g)
    (v : Voxel) :
    v ∈ g.voxels_ ↔ ∃ k ∈ (contribs input.HasColors voxel_size min_bound
        input.points_ input.colors_).map Prod.fst,
      v = voxelOf input.HasColors (contribs input.HasColors voxel_size min_bound
        input.points_ input.colors_) k := by
  obtain ⟨keys, _, hkeys, hg⟩ := CreateFromPointCloudWithinBounds_ok _ _ _ _ _ h
  subst hg
  simp only [List.mem_map]
  constructor
  · rintro ⟨k, hk, rfl⟩
    exact ⟨k, List.mem_map.1 ((hkeys k).1 hk), rfl⟩
  · rintro ⟨k, hk, rfl⟩
    exact ⟨k, (hkeys k).2 (List.mem_map.2 hk), rfl⟩

theorem contribs_perm (input1 input2 : PointCloud) (voxel_size : ℚ) (min_bound : Vector3d)
    (hperm : (input1.HasColors = true ∧ input2.HasColors = true ∧
        (input1.points_.zip input1.colors_).Perm (input2.points_.zip input2.colors_)) ∨
      (input1.HasColors = false ∧ input2.HasColors = false ∧
        input1.points_.Perm input2.points_)) :
    input1.HasColors = input2.HasColors ∧
      (contribs input1.HasColors voxel_size min_bound input1.points_ input1.colors_).Perm
        (contribs input2.HasColors voxel_size min_bound input2.points_ input2.colors_) := by
  rcases hperm with ⟨h1, h2, hp⟩ | ⟨h1, h2, hp⟩
  · refine ⟨h1.trans h2.symm, ?_⟩
    rw [h1, h2, contribs_colors _ _ _ _ (HasColors_length _ h1),
      contribs_colors _ _ _ _ (HasColors_length _ h2)]
    exact hp.map _
  · refine ⟨h1.trans h2.symm, ?_⟩
    rw [h1, h2, contribs_no_colors, contribs_no_colors]
    exact hp.map _

theorem foldl_flatMap_eq {α β γ : Type} (f : α → List β) (g : γ → β → γ) (l : List α) (a : γ) :
    (l.flatMap f).foldl g a = l.foldl (fun acc x => (f x).foldl g acc) a := by
  induction l generalizing a with
  | nil => rfl
  | cons x rest ih => simp [List.flatMap_cons, List.foldl_append, ih]

theorem denseLoop_eq_foldl (color : Vector3d) (num_w num_h num_d : ℤ) (output : VoxelGrid) :
    denseLoop color num_w num_h num_d output =
      (denseIndices num_w.toNat num_h.toNat num_d.toNat).foldl
        (fun out idx => out.AddVoxel ⟨idx, color⟩) output := by
  unfold denseLoop denseIndices
  rw [foldl_flatMap_eq]
  congr 1
  funext out w
  rw [foldl_flatMap_eq]
  congr 1
  funext out h
  rw [List.foldl_map]

theorem mem_denseIndices (nw nh nd : ℕ) (idx : Vector3i) :
    idx ∈ denseIndices nw nh nd ↔
      (0 ≤ idx.1 ∧ idx.1 < nw) ∧ (0 ≤ idx.2.1 ∧ idx.2.1 < nh) ∧ (0 ≤ idx.2.2 ∧ idx.2.2 < nd) := by
  obtain ⟨a, b, c⟩ := idx
  simp only [denseIndices, List.mem_flatMap, List.mem_map, List.mem_range, Prod.mk.injEq]
  constructor
  · rintro ⟨w, hw, h, hh, d, hd, rfl, rfl, rfl⟩
    simp only [Nat.cast_nonneg, Nat.cast_lt, true_and]
    exact ⟨hw, hh, hd⟩
  · rintro ⟨⟨a0, a1⟩, ⟨b0, b1⟩, ⟨c0, c1⟩⟩
    refine ⟨a.toNat, ?_, b.toNat, ?_, c.toNat, ?_, ?_, ?_, ?_⟩ <;> omega

theorem length_flatMap_const {α β : Type} (f : α → List β) (c : ℕ) (l : List α)
    (h : ∀ x ∈ l, (f x).length = c) : (l.flatMap f).length = l.length * c := by
  induction l with
  | nil => simp
  | cons x rest ih =>
    rw [List.flatMap_cons, List.length_append, h x (List.mem_cons_self _ _),
      ih (fun y hy => h y (List.mem_cons_of_mem _ hy)), List.length_cons]
    ring

theorem length_denseIndices (nw nh nd : ℕ) : (denseIndices nw nh nd).length = nw * nh * nd := by
  unfold denseIndices
  rw [length_flatMap_const _ (nh * nd), List.length_range, mul_assoc]
  intro w _
  rw [length_flatMap_const _ nd, List.length_range]
  intro h _
  rw [List.length_map, List.length_range]

theorem nodup_denseIndices (nw nh nd : ℕ) : (denseIndices nw nh nd).Nodup := by
  unfold denseIndices
  rw [List.nodup_flatMap]
  refine ⟨fun w _ => ?_, ?_⟩
  · rw [List.nodup_flatMap]
    refine ⟨fun h _ => ?_, ?_⟩
    · refine (List.nodup_range nd).map ?_
      intro d1 d2 hd
      simp only [Prod.mk.injEq, Nat.cast_inj, true_and] at hd
      exact hd
    · refine (List.nodup_range nh).pairwise_of_forall_ne ?_
      intro h1 _ h2 _ hne
      intro x hx1 hx2
      simp only [List.mem_map, List.mem_range] at hx1 hx2
      obtain ⟨_, _, rfl⟩ := hx1
      obtain ⟨_, _, heq⟩ := hx2
      simp only [Prod.mk.injEq, Nat.cast_inj, true_and] at heq
      exact hne heq.1.symm
  · refine (List.nodup_range nw).pairwise_of_forall_ne ?_
    intro w1 _ w2 _ hne
    intro x hx1 hx2
    simp only [List.mem_flatMap, List.mem_map, List.mem_range] at hx1 hx2
    obtain ⟨_, _, _, _, rfl⟩ := hx1
    obtain ⟨_, _, _, _, heq⟩ := hx2
    simp only [Prod.mk.injEq, Nat.cast_inj] at heq
    exact hne heq.1.symm

/-- The result of `CreateDense` in closed form. -/
theorem CreateDense_eq (origin color : Vector3d) (voxel_size width height depth : ℚ) :
    CreateDense origin color voxel_size width height depth =
      ⟨voxel_size, origin,
        (denseIndices (toInt (std_round (width / voxel_size))).toNat
          (toInt (std_round (height / voxel_size))).toNat
          (toInt (std_round (depth / voxel_size))).toNat).map (fun idx => ⟨idx, color⟩)⟩ := by
  unfold CreateDense
  simp only
  rw [denseLoop_eq_foldl, foldl_AddVoxel_of_nodup]
  · simp [VoxelGrid.empty]
  · simp only [VoxelGrid.empty, List.nil_append, List.map_map]
    have hid : (Voxel.grid_index_ ∘ fun idx : Vector3i => (⟨idx, color⟩ : Voxel)) = id := by
      funext k; rfl
    rw [hid, List.map_id]
    exact nodup_denseIndices _ _ _

theorem std_round_nonneg (q : ℚ) (h : 0 ≤ q) : 0 ≤ std_round q := by
  unfold std_round
  rw [if_pos h]
  apply Int.floor_nonneg.2
  linarith

theorem toInt_count (q : ℚ) (h : 0 ≤ q) (hmax : std_round q ≤ INT_MAX) :
    toInt (std_round q) = std_round q ∧ 0 ≤ std_round q := by
  have h0 := std_round_nonneg q h
  refine ⟨toInt_of_range _ ?_ hmax, h0⟩
  unfold INT_MIN
  omega

theorem floor_half_offset (x voxel_size : ℚ) (h : 0 < voxel_size) :
    toInt ⌊(x - (x - voxel_size * (1 / 2))) / voxel_size⌋ = 0 := by
  have hq : (x - (x - voxel_size * (1 / 2))) / voxel_size = 1 / 2 := by
    field_simp
    ring
  rw [hq]
  decide!

theorem half_pad (voxel_size : ℚ) :
    mulScalar (voxel_size, voxel_size, voxel_size) (1 / 2)
      = (voxel_size / 2, voxel_size / 2, voxel_size / 2) := by
  show (voxel_size * (1 / 2), voxel_size * (1 / 2), voxel_size * (1 / 2)) = _
  rw [mul_one_div]

/-- C11: for every point cloud and every `voxel_size`, `CreateFromPointCloud`
gives the same result as `CreateFromPointCloudWithinBounds` called with
`pointcloud_min - voxel_size/2` and `pointcloud_max + voxel_size/2` on each
axis: the same grid when the latter succeeds, the same `InvalidParameter`
error when it fails. -/
theorem CreateFromPointCloud_eq_BoundsResolver_spec (input : PointCloud) (voxel_size : ℚ) :
    CreateFromPointCloud input voxel_size = BoundsResolver_spec input voxel_size ∧
      (∀ g, CreateFromPointCloudWithinBounds input voxel_size
            (input.GetMinBound - (voxel_size / 2, voxel_size / 2, voxel_size / 2))
            (input.GetMaxBound + (voxel_size / 2, voxel_size / 2, voxel_size / 2)) = .ok g →
          CreateFromPointCloud input voxel_size = .ok g) ∧
      (∀ e, CreateFromPointCloudWithinBounds input voxel_size
            (input.GetMinBound - (voxel_size / 2, voxel_size / 2, voxel_size / 2))
            (input.GetMaxBound + (voxel_size / 2, voxel_size / 2, voxel_size / 2)) = .error e →
          CreateFromPointCloud input voxel_size = .error e) := by
  have heq : CreateFromPointCloud input voxel_size = BoundsResolver_spec input voxel_size := by
    unfold CreateFromPointCloud BoundsResolver_spec
    simp only [half_pad]
  refine ⟨heq, ?_, ?_⟩
  · intro g hg
    rw [heq]
    exact hg
  · intro e he
    rw [heq]
    exact he

/-! ## Representable indices -/

theorem floor_offset_range (voxel_size lo x hi : ℚ) (hvs : 0 < voxel_size)
    (hlo : lo ≤ x) (hhi : x ≤ hi) (hext : hi - lo ≤ voxel_size * (INT_MAX : ℚ)) :
    0 ≤ ⌊(x - lo) / voxel_size⌋ ∧ ⌊(x - lo) / voxel_size⌋ ≤ INT_MAX := by
  constructor
  · apply Int.floor_nonneg.2
    exact div_nonneg (by linarith) hvs.le
  · have h1 : (x - lo) / voxel_size ≤ (INT_MAX : ℚ) := by
      rw [div_le_iff₀ hvs]
      linarith
    have h2 : ((⌊(x - lo) / voxel_size⌋ : ℤ) : ℚ) ≤ (INT_MAX : ℚ) :=
      le_trans (Int.floor_le _) h1
    exact_mod_cast h2

theorem le_maxCoeff (v : Vector3d) :
    v.1 ≤ maxCoeff v ∧ v.2.1 ≤ maxCoeff v ∧ v.2.2 ≤ maxCoeff v := by
  unfold maxCoeff
  refine ⟨le_max_left _ _, ?_, ?_⟩
  · exact le_trans (le_max_left _ _) (le_max_right _ _)
  · exact le_trans (le_max_right _ _) (le_max_right _ _)

theorem InIntRange_of_nonneg (i : Vector3i) (h : InNonnegRange i) : InIntRange i := by
  obtain ⟨⟨a1, a2⟩, ⟨b1, b2⟩, ⟨c1, c2⟩⟩ := h
  unfold InIntRange INT_MIN
  refine ⟨⟨?_, a2⟩, ⟨?_, b2⟩, ⟨?_, c2⟩⟩ <;> omega

theorem floorIndex_range (voxel_size : ℚ) (min_bound max_bound p : Vector3d)
    (hvs : 0 < voxel_size)
    (hext : ¬ voxel_size * (INT_MAX : ℚ) < maxCoeff (max_bound - min_bound))
    (hb : WithinBounds p min_bound max_bound) :
    InNonnegRange (floorIndex voxel_size min_bound p) := by
  obtain ⟨x, y, z⟩ := p
  obtain ⟨a, b, c⟩ := min_bound
  obtain ⟨a', b', c'⟩ := max_bound
  obtain ⟨⟨x1, x2⟩, ⟨y1, y2⟩, ⟨z1, z2⟩⟩ := hb
  have hm := le_maxCoeff ((a', b', c') - (a, b, c))
  have hext' := not_lt.1 hext
  simp only [Prod.mk_sub_mk] at hm
  simp only at x1 x2 y1 y2 z1 z2
  exact ⟨floor_offset_range voxel_size a x a' hvs x1 x2 (le_trans hm.1 hext'),
    floor_offset_range voxel_size b y b' hvs y1 y2 (le_trans hm.2.1 hext'),
    floor_offset_range voxel_size c z c' hvs z1 z2 (le_trans hm.2.2 hext')⟩

theorem floor_axisCell (voxel_size x : ℚ) (hvs : 0 < voxel_size) :
    axisCell voxel_size x ⌊x / voxel_size⌋ := by
  constructor
  · have := Int.floor_le (x / voxel_size)
    rwa [le_div_iff₀ hvs] at this
  · have := Int.lt_floor_add_one (x / voxel_size)
    rwa [div_lt_iff₀ hvs] at this

theorem floor_neg_of_neg (voxel_size x : ℚ) (hvs : 0 < voxel_size) (hx : x < 0) :
    ⌊x / voxel_size⌋ < 0 := by
  rw [Int.floor_lt]
  simpa using div_neg_of_neg_of_pos hx hvs

theorem toInt_floor_minus_one (voxel_size x : ℚ) (hvs : 0 < voxel_size)
    (h1 : -voxel_size ≤ x) (h2 : x < 0) : toInt ⌊x / voxel_size⌋ = -1 := by
  have hf : ⌊x / voxel_size⌋ = -1 := by
    rw [Int.floor_eq_iff]
    constructor
    · rw [le_div_iff₀ hvs]
      push_cast
      linarith
    · rw [div_lt_iff₀ hvs]
      push_cast
      linarith
  rw [hf]
  decide

theorem foldl_log_eq {α β : Type} (f : α → β) (l : List α) (init : List β) :
    l.foldl (fun log x => log ++ [f x]) init = init ++ l.map f := by
  induction l generalizing init with
  | nil => simp
  | cons x rest ih => simp [ih]

theorem denseCalls_eq (color : Vector3d) (num_w num_h num_d : ℤ) :
    denseCalls color num_w num_h num_d =
      (denseIndices num_w.toNat num_h.toNat num_d.toNat).map (fun idx => ⟨idx, color⟩) := by
  have h : denseCalls color num_w num_h num_d =
      (denseIndices num_w.toNat num_h.toNat num_d.toNat).foldl
        (fun log idx => log ++ [(⟨idx, color⟩ : Voxel)]) [] := by
    unfold denseCalls denseIndices
    rw [foldl_flatMap_eq]
    congr 1
    funext log w
    rw [foldl_flatMap_eq]
    congr 1
    funext log h
    rw [List.foldl_map]
  rw [h, foldl_log_eq, List.nil_append]

theorem denseLoop_eq_calls (color : Vector3d) (num_w num_h num_d : ℤ) (output : VoxelGrid) :
    denseLoop color num_w num_h num_d output =
      (denseCalls color num_w num_h num_d).foldl VoxelGrid.AddVoxel output := by
  rw [denseLoop_eq_foldl, denseCalls_eq, List.foldl_map]

theorem pairwise_lexLt_denseIndices (nw nh nd : ℕ) :
    (denseIndices nw nh nd).Pairwise lexLt := by
  unfold denseIndices
  rw [List.pairwise_flatMap]
  refine ⟨fun w _ => ?_, ?_⟩
  · rw [List.pairwise_flatMap]
    refine ⟨fun h _ => ?_, ?_⟩
    · rw [List.pairwise_map]
      refine (List.pairwise_lt_range nd).imp ?_
      intro d1 d2 hlt
      exact Or.inr ⟨rfl, Or.inr ⟨rfl, Int.ofNat_lt.2 hlt⟩⟩
    · refine (List.pairwise_lt_range nh).imp ?_
      intro h1 h2 hlt x hx y hy
      obtain ⟨_, _, rfl⟩ := List.mem_map.1 hx
      obtain ⟨_, _, rfl⟩ := List.mem_map.1 hy
      exact Or.inr ⟨rfl, Or.inl (Int.ofNat_lt.2 hlt)⟩
  · refine (List.pairwise_lt_range nw).imp ?_
    intro w1 w2 hlt x hx y hy
    obtain ⟨_, _, hx'⟩ := List.mem_flatMap.1 hx
    obtain ⟨_, _, hy'⟩ := List.mem_flatMap.1 hy
    obtain ⟨_, _, rfl⟩ := List.mem_map.1 hx'
    obtain ⟨_, _, rfl⟩ := List.mem_map.1 hy'
    exact Or.inl (Int.ofNat_lt.2 hlt)

/-- C15: `CreateDense` emits its voxels (the sequence of `AddVoxel` calls) in
axis-major nested order, `w` outermost, then `h`, then `d` innermost: the grid
is the result of these calls, the emitted index sequence is strictly increasing
in lexicographic order on `(w, h, d)`, and it contains no index twice. -/
theorem CreateDense_emission_order (origin color : Vector3d)
    (voxel_size width height depth : ℚ) :
    CreateDense origin color voxel_size width height depth =
        (denseCalls color (toInt (std_round (width / voxel_size)))
          (toInt (std_round (height / voxel_size)))
          (toInt (std_round (depth / voxel_size)))).foldl VoxelGrid.AddVoxel
          { VoxelGrid.empty with origin_ := origin, voxel_size_ := voxel_size } ∧
      ((denseCalls color (toInt (std_round (width / voxel_size)))
          (toInt (std_round (height / voxel_size)))
          (toInt (std_round (depth / voxel_size)))).map Voxel.grid_index_).Pairwise lexLt ∧
      ((denseCalls color (toInt (std_round (width / voxel_size)))
          (toInt (std_round (height / voxel_size)))
          (toInt (std_round (depth / voxel_size)))).map Voxel.grid_index_).Nodup ∧
      denseCalls (1, 0, 0) 2 2 1 =
        [⟨(0, 0, 0), (1, 0, 0)⟩, ⟨(0, 1, 0), (1, 0, 0)⟩, ⟨(1, 0, 0), (1, 0, 0)⟩,
          ⟨(1, 1, 0), (1, 0, 0)⟩] := by
  have hid : (Voxel.grid_index_ ∘ fun idx : Vector3i => (⟨idx, color⟩ : Voxel)) = id := by
    funext k; rfl
  refine ⟨?_, ?_, ?_, by decide⟩
  · unfold CreateDense
    exact denseLoop_eq_calls _ _ _ _ _
  · rw [denseCalls_eq, List.map_map, hid, List.map_id]
    exact pairwise_lexLt_denseIndices _ _ _
  · rw [denseCalls_eq, List.map_map, hid, List.map_id]
    exact nodup_denseIndices _ _ _

/-! ## `CreateDense` on degenerate counts -/

theorem denseIndices_eq_nil (nw nh nd : ℕ) (h : nw = 0 ∨ nh = 0 ∨ nd = 0) :
    denseIndices nw nh nd = [] := by
  apply List.eq_nil_of_length_eq_zero
  rw [length_denseIndices]
  rcases h with h | h | h <;> simp [h]

theorem toNat_toInt_eq_zero (z : ℤ) (h1 : INT_MIN ≤ z) (h2 : z ≤ 0) : (toInt z).toNat = 0 := by
  rw [toInt_of_range z h1 (le_trans h2 (by decide))]
  exact Int.toNat_eq_zero.2 h2

theorem foldl_cwiseMin_le (ps : List Vector3d) (acc : Vector3d) :
    ((ps.foldl cwiseMin acc).1 ≤ acc.1 ∧ (ps.foldl cwiseMin acc).2.1 ≤ acc.2.1 ∧
        (ps.foldl cwiseMin acc).2.2 ≤ acc.2.2) ∧
      ∀ q ∈ ps, (ps.foldl cwiseMin acc).1 ≤ q.1 ∧ (ps.foldl cwiseMin acc).2.1 ≤ q.2.1 ∧
        (ps.foldl cwiseMin acc).2.2 ≤ q.2.2 := by
  induction ps generalizing acc with
  | nil => simp
  | cons q rest ih =>
    obtain ⟨⟨a1, a2, a3⟩, hrest⟩ := ih (cwiseMin acc q)
    simp only [cwiseMin] at a1 a2 a3
    simp only [List.foldl_cons]
    refine ⟨⟨le_trans a1 (min_le_left _ _), le_trans a2 (min_le_left _ _),
      le_trans a3 (min_le_left _ _)⟩, ?_⟩
    intro q' hq'
    rcases List.mem_cons.1 hq' with rfl | hmem
    · exact ⟨le_trans a1 (min_le_right _ _), le_trans a2 (min_le_right _ _),
        le_trans a3 (min_le_right _ _)⟩
    · exact hrest q' hmem

theorem foldl_cwiseMax_ge (ps : List Vector3d) (acc : Vector3d) :
    (acc.1 ≤ (ps.foldl cwiseMax acc).1 ∧ acc.2.1 ≤ (ps.foldl cwiseMax acc).2.1 ∧
        acc.2.2 ≤ (ps.foldl cwiseMax acc).2.2) ∧
      ∀ q ∈ ps, q.1 ≤ (ps.foldl cwiseMax acc).1 ∧ q.2.1 ≤ (ps.foldl cwiseMax acc).2.1 ∧
        q.2.2 ≤ (ps.foldl cwiseMax acc).2.2 := by
  induction ps generalizing acc with
  | nil => simp
  | cons q rest ih =>
    obtain ⟨⟨a1, a2, a3⟩, hrest⟩ := ih (cwiseMax acc q)
    simp only [cwiseMax] at a1 a2 a3
    simp only [List.foldl_cons]
    refine ⟨⟨le_trans (le_max_left _ _) a1, le_trans (le_max_left _ _) a2,
      le_trans (le_max_left _ _) a3⟩, ?_⟩
    intro q' hq'
    rcases List.mem_cons.1 hq' with rfl | hmem
    · exact ⟨le_trans (le_max_right _ _) a1, le_trans (le_max_right _ _) a2,
        le_trans (le_max_right _ _) a3⟩
    · exact hrest q' hmem

theorem GetMinBound_le (pc : PointCloud) (q : Vector3d) (hq : q ∈ pc.points_) :
    pc.GetMinBound.1 ≤ q.1 ∧ pc.GetMinBound.2.1 ≤ q.2.1 ∧ pc.GetMinBound.2.2 ≤ q.2.2 := by
  unfold PointCloud.GetMinBound
  cases hps : pc.points_ with
  | nil => rw [hps] at hq; cases hq
  | cons p0 rest =>
    rw [hps] at hq
    simp only
    rcases List.mem_cons.1 hq with rfl | hmem
    · exact (foldl_cwiseMin_le rest q).1
    · exact (foldl_cwiseMin_le rest p0).2 q hmem

theorem le_GetMaxBound (pc : PointCloud) (q : Vector3d) (hq : q ∈ pc.points_) :
    q.1 ≤ pc.GetMaxBound.1 ∧ q.2.1 ≤ pc.GetMaxBound.2.1 ∧ q.2.2 ≤ pc.GetMaxBound.2.2 := by
  unfold PointCloud.GetMaxBound
  cases hps : pc.points_ with
  | nil => rw [hps] at hq; cases hq
  | cons p0 rest =>
    rw [hps] at hq
    simp only
    rcases List.mem_cons.1 hq with rfl | hmem
    · exact (foldl_cwiseMax_ge rest q).1
    · exact (foldl_cwiseMax_ge rest p0).2 q hmem

theorem WithinBounds_padded (pc : PointCloud) (voxel_size : ℚ) (hvs : 0 < voxel_size)
    (q : Vector3d) (hq : q ∈ pc.points_) :
    WithinBounds q (pc.GetMinBound - mulScalar (voxel_size, voxel_size, voxel_size) (1 / 2))
      (pc.GetMaxBound + mulScalar (voxel_size, voxel_size, voxel_size) (1 / 2)) := by
  obtain ⟨l1, l2, l3⟩ := GetMinBound_le pc q hq
  obtain ⟨u1, u2, u3⟩ := le_GetMaxBound pc q hq
  have hh : 0 < voxel_size * (1 / 2) := by positivity
  simp only [WithinBounds, mulScalar, Prod.fst_sub, Prod.snd_sub, Prod.fst_add, Prod.snd_add]
  refine ⟨⟨?_, ?_⟩, ⟨?_, ?_⟩, ⟨?_, ?_⟩⟩ <;> linarith

theorem contribs_append (has_colors : Bool) (voxel_size : ℚ) (min_bound : Vector3d)
    (ps₁ ps₂ cs : List Vector3d) :
    contribs has_colors voxel_size min_bound (ps₁ ++ ps₂) cs =
      contribs has_colors voxel_size min_bound ps₁ cs ++
        contribs has_colors voxel_size min_bound ps₂ (cs.drop ps₁.length) := by
  induction ps₁ generalizing cs with
  | nil => simp [contribs]
  | cons p rest ih =>
    cases cs with
    | nil => simp [contribs, ih]
    | cons c cs' => simp [contribs, ih]

theorem accumulate_append (has_colors : Bool) (voxel_size : ℚ) (min_bound : Vector3d)
    (ps₁ ps₂ cs : List Vector3d) (m : AccMap) :
    accumulate has_colors voxel_size min_bound (ps₁ ++ ps₂) cs m =
      accumulate has_colors voxel_size min_bound ps₂ (cs.drop ps₁.length)
        (accumulate has_colors voxel_size min_bound ps₁ cs m) := by
  rw [accumulate_eq_foldl, accumulate_eq_foldl, accumulate_eq_foldl, contribs_append,
    List.foldl_append]

theorem filter_contribs_length (has_colors : Bool) (voxel_size : ℚ) (min_bound : Vector3d)
    (ps cs : List Vector3d) (k : Vector3i) :
    ((contribs has_colors voxel_size min_bound ps cs).filter
        (fun e => decide (e.1 = k))).length =
      (ps.filter (fun p => decide (voxelIndex voxel_size min_bound p = k))).length := by
  induction ps generalizing cs with
  | nil => rfl
  | cons p rest ih =>
    by_cases hk : voxelIndex voxel_size min_bound p = k
    · simp [contribs, hk, ih]
    · simp [contribs, hk, ih]

theorem AccInv_accumulate (has_colors : Bool) (voxel_size : ℚ) (min_bound : Vector3d)
    (ps cs : List Vector3d) :
    AccInv (accumulate has_colors voxel_size min_bound ps cs [])
      (contribs has_colors voxel_size min_bound ps cs) := by
  rw [accumulate_eq_foldl]
  have := AccInv_foldl (contribs has_colors voxel_size min_bound ps cs) [] [] AccInv_nil
  rwa [List.nil_append] at this

theorem filter_voxelIndex_eq_countAt (voxel_size : ℚ) (min_bound : Vector3d)
    (ps : List Vector3d) (k : Vector3i)
    (hr : ∀ p ∈ ps, InIntRange (floorIndex voxel_size min_bound p)) :
    (ps.filter (fun p => decide (voxelIndex voxel_size min_bound p = k))).length
      = countAt voxel_size min_bound ps k := by
  unfold countAt
  congr 1
  apply List.filter_congr
  intro p hp
  rw [voxelIndex_eq_floorIndex _ _ _ (hr p hp)]

end geometry
end open3d
